import Mathlib

/-!
Verification of the data-ingestion pipeline of the geoapi repository
(`scripts/data/ingest_datasets.py`), as a shallow embedding in Lean 4.

Modelling conventions:
- A raw dataframe cell is modelled by `RawVal` (missing value, empty
  string, numeric value, or a non-numeric string); Python numeric
  conversions (`int(...)`, `float(...)`) become `Option`-valued functions.
- A parsed GeoJSON shape (the result of `json.loads` + `shapely.shape`)
  is modelled by `ParsedGeom`; a parse failure of either step is the
  `none` case of `Option ParsedGeom`.
- Python floats are modelled by `Rat`.
- Database success/failure is external nondeterminism; it is modelled by
  boolean oracles (`batchOk : List _ → Bool` for a batch bulk insert,
  `rowOk : _ → Bool` for an individual row insert).
- `pd.to_datetime` is an external parser; its input is modelled by
  `RawTime`, which records whether the parse succeeds and, if so, the
  resulting instant (as an integer epoch value).
-/

/-- A parsed geometry object as produced by `shapely.geometry.shape`
from a GeoJSON structure.  Coordinates are pairs of rationals. -/
inductive ParsedGeom where
  | lineString (coords : List (Rat × Rat))
  | multiLineString (parts : List (List (Rat × Rat)))
  | point (coord : Rat × Rat)
  | polygon (rings : List (List (Rat × Rat)))
  deriving DecidableEq, Repr

/-- Model of `geoalchemy2.WKTElement`: a geometry tagged with an SRID. -/
structure WKTElement where
  geom : ParsedGeom
  srid : Nat
  deriving DecidableEq, Repr

/-- Whether a WKTElement is a single-part LineString. -/
def WKTElement.isSingleLineString : WKTElement → Bool
  | ⟨ParsedGeom.lineString _, _⟩ => true
  | _ => false

/-- Embeds `convert_geometry_to_wkt_element` from
`scripts/data/ingest_datasets.py`.  The input is the result of parsing
the row's `geo_json` cell (`none` models a `json.loads`/`shape` failure,
which the function's `except` clause converts to `None`).  A
MultiLineString is reduced to its first constituent LineString, an empty
MultiLineString yields `None`; every other successfully parsed geometry
is returned as-is, wrapped in a `WKTElement` with SRID 4326. -/
def convert_geometry_to_wkt_element : Option ParsedGeom → Option WKTElement
  | none => none
  | some (ParsedGeom.multiLineString []) => none
  | some (ParsedGeom.multiLineString (p :: _)) =>
      some ⟨ParsedGeom.lineString p, 4326⟩
  | some g => some ⟨g, 4326⟩

/-- A raw dataframe cell, as seen by the ingestion script's defensive
numeric conversions.  `na` models a missing value (pandas NA / Python
None), `emptyStr` the empty string, `num` a cell that Python numeric
conversion turns into a number, `badStr` a non-empty string on which
numeric conversion raises. -/
inductive RawVal where
  | na
  | emptyStr
  | num (q : Rat)
  | badStr (s : String)
  deriving DecidableEq, Repr

/-- Embeds `_safe_float_conversion`: `None` unless the value is present
(`pd.notna`), non-empty, and convertible by `float(...)`. -/
def safe_float_conversion : RawVal → Option Rat
  | RawVal.num q => some q
  | _ => none

/-- Python `int(...)` on a raw cell: succeeds on a numeric value
(truncating toward zero), raises (modelled as `none`) otherwise. -/
def pyInt : RawVal → Option Int
  | RawVal.num q => some q.floor
  | _ => none

/-- Python `float(...)` on a raw cell: succeeds on a numeric value,
raises (modelled as `none`) on a missing value (`float(None)` raises
TypeError), the empty string, or a non-numeric string. -/
def pyFloat : RawVal → Option Rat
  | RawVal.num q => some q
  | _ => none

/-- A raw row of the link dataset: the parse outcome of its `geo_json`
cell, its `link_id` cell, its `road_name` (already `None`-normalised via
`pd.notna`), and its `_length` cell. -/
structure LinkRow where
  geo_json : Option ParsedGeom
  link_id : RawVal
  road_name : Option String
  length : RawVal
  deriving DecidableEq, Repr

/-- The `Link` ORM entity (`app/models/link.py`): nullable geometry
column, nullable metadata. -/
structure Link where
  link_id : Int
  geometry : Option WKTElement
  road_name : Option String
  length : Option Rat
  road_type : Option String
  speed_limit : Option Int
  deriving DecidableEq, Repr

/-- Embeds the per-row body of `_transform_link_chunk`: convert the
geometry (skip the row if invalid), convert `_length` defensively, then
build the `Link`; a failing `int(row['link_id'])` is caught by the
enclosing `except` and skips the row. -/
def transform_link_row (row : LinkRow) : Option Link :=
  match convert_geometry_to_wkt_element row.geo_json with
  | none => none
  | some g =>
    match pyInt row.link_id with
    | none => none
    | some lid =>
      some { link_id := lid
             geometry := some g
             road_name := row.road_name
             length := safe_float_conversion row.length
             road_type := none
             speed_limit := none }

/-- Embeds `_transform_link_chunk`: the loop with `continue` on invalid
geometry or a raised exception is a `filterMap` of the per-row
transform. -/
def transform_link_chunk (chunk : List LinkRow) : List Link :=
  chunk.filterMap transform_link_row

/-- The input of `pd.to_datetime`: either a cell that parses to an
instant (an integer epoch value) or one on which the parser raises. -/
inductive RawTime where
  | valid (t : Int)
  | invalid (s : String)
  deriving DecidableEq, Repr

/-- Model of `pd.to_datetime` on a raw cell. -/
def to_datetime : RawTime → Option Int
  | RawTime.valid t => some t
  | RawTime.invalid _ => none

/-- Embeds the module constant `PERIOD_MAPPING` and its
`PERIOD_MAPPING.get(row['period'], None)` lookup: the static 7-entry
period-code table, unrecognised codes mapping to `none`. -/
def PERIOD_MAPPING : Int → Option String
  | 1 => some "Overnight"
  | 2 => some "Early Morning"
  | 3 => some "AM Peak"
  | 4 => some "Midday"
  | 5 => some "Early Afternoon"
  | 6 => some "PM Peak"
  | 7 => some "Evening"
  | _ => none

/-- A raw row of the speed dataset. -/
structure SpeedRow where
  link_id : RawVal
  date_time : RawTime
  average_speed : RawVal
  period : Int
  deriving DecidableEq, Repr

/-- The `SpeedRecord` ORM entity (`app/models/speed_record.py`) as
populated by the ingestion path (the `id` primary key is
system-generated and `day_of_week` is never set by this path). -/
structure SpeedRecord where
  link_id : Int
  timestamp : Int
  speed : Rat
  time_period : Option String
  deriving DecidableEq, Repr

/-- Outcome of one iteration of the `_transform_speed_chunk` loop:
an emitted entity, a counted skip (`skipped_count += 1; continue` on an
unknown link id), or an uncounted skip through the `except` clause
(`print`, `continue` — no counter touched). -/
inductive SpeedRowOutcome where
  | ok (r : SpeedRecord)
  | skippedUnknown
  | errorSkip
  deriving DecidableEq, Repr

/-- Embeds the per-row body of `_transform_speed_chunk`, in source
order: `int(row['link_id'])` (raise ⇒ uncounted skip), the referential
check against `existing_link_ids` (miss ⇒ counted skip),
`pd.to_datetime(row['date_time'])` (raise ⇒ uncounted skip), the period
lookup, and `float(row['average_speed'])` inside the constructor call
(raise ⇒ uncounted skip). -/
def transform_speed_row (ids : List Int) (row : SpeedRow) : SpeedRowOutcome :=
  match pyInt row.link_id with
  | none => SpeedRowOutcome.errorSkip
  | some lid =>
    if lid ∈ ids then
      match to_datetime row.date_time with
      | none => SpeedRowOutcome.errorSkip
      | some ts =>
        match pyFloat row.average_speed with
        | none => SpeedRowOutcome.errorSkip
        | some sp =>
          SpeedRowOutcome.ok
            { link_id := lid
              timestamp := ts
              speed := sp
              time_period := PERIOD_MAPPING row.period }
    else SpeedRowOutcome.skippedUnknown

/-- Embeds `_transform_speed_chunk`: accumulates the emitted
`SpeedRecord`s in order together with `skipped_count`, which counts
only the referential-integrity skips. -/
def transform_speed_chunk (ids : List Int) : List SpeedRow → List SpeedRecord × Nat
  | [] => ([], 0)
  | row :: rest =>
    let acc := transform_speed_chunk ids rest
    match transform_speed_row ids row with
    | SpeedRowOutcome.ok r => (r :: acc.1, acc.2)
    | SpeedRowOutcome.skippedUnknown => (acc.1, acc.2 + 1)
    | SpeedRowOutcome.errorSkip => acc

/-- Rows of a chunk that fall through the `except` clause of
`_transform_speed_chunk` (skipped but not counted anywhere). -/
def speed_error_count (ids : List Int) (rows : List SpeedRow) : Nat :=
  rows.countP (fun row =>
    match transform_speed_row ids row with
    | SpeedRowOutcome.errorSkip => true
    | _ => false)

/-- Rows of a link chunk skipped by `_transform_link_chunk`
(invalid geometry or a raised per-row exception); no counter exists for
them in the source. -/
def link_skip_count (rows : List LinkRow) : Nat :=
  rows.countP (fun row => (transform_link_row row).isNone)

/-- Batch size for link bulk inserts (`LINK_BATCH_SIZE`). -/
def LINK_BATCH_SIZE : Nat := 1000

/-- Batch size for speed-record bulk inserts (`SPEED_BATCH_SIZE`). -/
def SPEED_BATCH_SIZE : Nat := 2000

/-- Chunk size for the link phase (`LINK_CHUNK_SIZE`). -/
def LINK_CHUNK_SIZE : Nat := 5000

/-- Chunk size for the speed phase (`SPEED_RECORD_CHUNK_SIZE`). -/
def SPEED_RECORD_CHUNK_SIZE : Nat := 5000

/-- Splits a list into contiguous chunks of at most `n` elements,
embedding the Python idiom `for i in range(0, len(l), n): l[i:i+n]`
used for both chunking and batching.  (`n = 0` is out of the source's
domain; it is given the harmless value of a single chunk.) -/
def chunksOf (n : Nat) : List α → List (List α)
  | [] => []
  | a :: l =>
    if _h : n = 0 then [a :: l]
    else (a :: l).take n :: chunksOf n ((a :: l).drop n)
  termination_by l => l.length
  decreasing_by
    simp [List.length_drop]
    omega

/-- Embeds `_bulk_insert_links`: per batch of `LINK_BATCH_SIZE`, a bulk
insert is attempted in one transaction (outcome given by the oracle
`batchOk`); on success the whole batch counts, on failure the batch is
rolled back and each row is retried in its own transaction (outcome
given by `rowOk`), counting only the rows that commit. -/
def bulk_insert_links (batchOk : List Link → Bool) (rowOk : Link → Bool)
    (link_objects : List Link) : Nat :=
  ((chunksOf LINK_BATCH_SIZE link_objects).map
    (fun batch =>
      if batchOk batch then batch.length
      else (batch.filter rowOk).length)).sum

/-- Embeds `_bulk_insert_speed_records`: per batch of
`SPEED_BATCH_SIZE`, a bulk insert is attempted; on failure the batch is
rolled back and skipped entirely (`continue` — no per-row retry), so a
failed batch contributes zero. -/
def bulk_insert_speed_records (batchOk : List SpeedRecord → Bool)
    (speed_objects : List SpeedRecord) : Nat :=
  ((chunksOf SPEED_BATCH_SIZE speed_objects).map
    (fun batch => if batchOk batch then batch.length else 0)).sum

/-- The speed-record writer as the spec describes it (§4.6 with
"SpeedWriter — bulk-writes SpeedRecord entities analogously to
LinkWriter"): on batch failure, retry row-by-row.  This definition
follows the spec's words, not the source, and exists only to be
compared with `bulk_insert_speed_records`. -/
def bulk_insert_speed_records_specified (batchOk : List SpeedRecord → Bool)
    (rowOk : SpeedRecord → Bool) (speed_objects : List SpeedRecord) : Nat :=
  ((chunksOf SPEED_BATCH_SIZE speed_objects).map
    (fun batch =>
      if batchOk batch then batch.length
      else (batch.filter rowOk).length)).sum

/-- The rows a link batch run actually commits, listwise: a successful
batch commits wholly, a failed batch commits exactly its individually
successful rows.  `bulk_insert_links` returns this list's length. -/
def inserted_links (batchOk : List Link → Bool) (rowOk : Link → Bool)
    (link_objects : List Link) : List Link :=
  ((chunksOf LINK_BATCH_SIZE link_objects).map
    (fun batch => if batchOk batch then batch else batch.filter rowOk)).flatten

/-- The rows a speed-record batch run actually commits, listwise: a
failed batch commits nothing. -/
def inserted_speed_records (batchOk : List SpeedRecord → Bool)
    (speed_objects : List SpeedRecord) : List SpeedRecord :=
  ((chunksOf SPEED_BATCH_SIZE speed_objects).map
    (fun batch => if batchOk batch then batch else [])).flatten

/-- Embeds the accumulation of `total_inserted` in
`process_links_chunked`: the source rows are cut into chunks of
`chunkSize`, each chunk is transformed and bulk-inserted, and the
per-chunk insert counts are summed.  The chunk size is a parameter so
that chunk-size independence can be stated. -/
def process_links_total (chunkSize : Nat) (batchOk : List Link → Bool)
    (rowOk : Link → Bool) (rows : List LinkRow) : Nat :=
  ((chunksOf chunkSize rows).map
    (fun ch => bulk_insert_links batchOk rowOk (transform_link_chunk ch))).sum

/-- Embeds the accumulation of `total_inserted` in
`process_speed_records_chunked`, parametric in the chunk size. -/
def process_speed_total (chunkSize : Nat) (batchOk : List SpeedRecord → Bool)
    (ids : List Int) (rows : List SpeedRow) : Nat :=
  ((chunksOf chunkSize rows).map
    (fun ch =>
      bulk_insert_speed_records batchOk (transform_speed_chunk ids ch).1)).sum

/-- The links committed by the whole link phase
(`process_links_chunked`), listwise. -/
def process_links_inserted (chunkSize : Nat) (batchOk : List Link → Bool)
    (rowOk : Link → Bool) (rows : List LinkRow) : List Link :=
  ((chunksOf chunkSize rows).map
    (fun ch => inserted_links batchOk rowOk (transform_link_chunk ch))).flatten

/-- The speed records committed by the whole speed phase
(`process_speed_records_chunked`), listwise. -/
def process_speed_inserted (chunkSize : Nat) (batchOk : List SpeedRecord → Bool)
    (ids : List Int) (rows : List SpeedRow) : List SpeedRecord :=
  ((chunksOf chunkSize rows).map
    (fun ch =>
      inserted_speed_records batchOk (transform_speed_chunk ids ch).1)).flatten

/-- The destination database state: the `links` and `speed_records`
tables. -/
structure DB where
  links : List Link
  speeds : List SpeedRecord
  deriving DecidableEq, Repr

/-- Embeds `clear_existing_data_orm`: delete all speed records, then
all links, then commit; on an error (oracle `clearFails`) roll back
(leaving the state unchanged) and re-raise. -/
def clear_existing_data_orm (clearFails : Bool) (_db : DB) : Except String DB :=
  if clearFails then Except.error "clear failed"
  else Except.ok ⟨[], []⟩

/-- Embeds `get_existing_link_ids`: on success, the `link_id` column of
the `links` table materialised in memory; on a query error (oracle
`queryFails`), the error is swallowed and the empty set returned. -/
def get_existing_link_ids (queryFails : Bool) (db : DB) : List Int :=
  if queryFails then []
  else db.links.map (fun l => l.link_id)

/-- Embeds `main` of `scripts/data/ingest_datasets.py`: clear existing
data (an exception here propagates to `main`'s handler, which exits
with status 1 before any insert is attempted), process links in chunks,
build the referential index, process speed records in chunks.  Returns
the final database state and the process exit status. -/
def ingestion_main (clearFails : Bool) (queryFails : Bool)
    (batchOk : List Link → Bool) (rowOk : Link → Bool)
    (speedBatchOk : List SpeedRecord → Bool) (db : DB)
    (linkRows : List LinkRow) (speedRows : List SpeedRow) : DB × Nat :=
  match clear_existing_data_orm clearFails db with
  | Except.error _ => (db, 1)
  | Except.ok cleared =>
    let links :=
      process_links_inserted LINK_CHUNK_SIZE batchOk rowOk linkRows
    let afterLinks : DB := ⟨cleared.links ++ links, cleared.speeds⟩
    let ids := get_existing_link_ids queryFails afterLinks
    let speeds :=
      process_speed_inserted SPEED_RECORD_CHUNK_SIZE speedBatchOk ids speedRows
    (⟨afterLinks.links, afterLinks.speeds ++ speeds⟩, 0)

/-- Whether a parsed geometry is of a linear type (LineString or
MultiLineString), the two types the source datasets carry. -/
def ParsedGeom.isLinear : ParsedGeom → Bool
  | ParsedGeom.lineString _ => true
  | ParsedGeom.multiLineString _ => true
  | _ => false

theorem chunksOf_flatten (n : Nat) (l : List α) :
    (chunksOf n l).flatten = l := by
  suffices h : ∀ k (l : List α), l.length = k → (chunksOf n l).flatten = l from
    h _ l rfl
  intro k
  induction k using Nat.strong_induction_on with
  | _ k ih =>
    intro l hlen
    cases l with
    | nil => simp [chunksOf]
    | cons a t =>
      rw [chunksOf]
      by_cases hn : n = 0
      · simp [hn]
      · rw [dif_neg hn]
        have hlt : ((a :: t).drop n).length < k := by
          subst hlen
          simp only [List.length_drop, List.length_cons]
          omega
        rw [List.flatten_cons, ih _ hlt _ rfl, List.take_append_drop]

theorem length_le_of_mem_chunksOf (n : Nat) (hn : n ≠ 0) (l : List α)
    (b : List α) (hb : b ∈ chunksOf n l) : b.length ≤ n := by
  suffices h : ∀ k (l : List α), l.length = k →
      ∀ b, b ∈ chunksOf n l → b.length ≤ n from h _ l rfl b hb
  intro k
  induction k using Nat.strong_induction_on with
  | _ k ih =>
    intro l hlen b hbmem
    cases l with
    | nil => simp [chunksOf] at hbmem
    | cons a t =>
      rw [chunksOf] at hbmem
      rw [dif_neg hn] at hbmem
      rcases List.mem_cons.mp hbmem with hb1 | hb1
      · subst hb1
        simp only [List.length_take]
        omega
      · have hlt : ((a :: t).drop n).length < k := by
          subst hlen
          simp only [List.length_drop, List.length_cons]
          omega
        exact ih _ hlt _ rfl _ hb1

theorem sum_map_ite_eq_filter_split (bs : List (List β)) (p : List β → Bool)
    (f g : List β → Nat) :
    ((bs.map (fun b => if p b then f b else g b)).sum : Nat)
      = ((bs.filter p).map f).sum
        + ((bs.filter (fun b => !p b)).map g).sum := by
  induction bs with
  | nil => simp
  | cons b bs ih =>
    by_cases hp : p b <;> simp [hp, ih] <;> omega

/-- C1 counterexample: the claim says any geometry type other than
LineString/MultiLineString is mapped to the invalid sentinel `None`; on
a Point input, `convert_geometry_to_wkt_element` instead returns a
valid `WKTElement` wrapping the Point unchanged, which is not a
single-part LineString. -/
theorem c1_counterexample :
    convert_geometry_to_wkt_element (some (ParsedGeom.point (0, 0)))
        = some ⟨ParsedGeom.point (0, 0), 4326⟩
      ∧ (WKTElement.isSingleLineString ⟨ParsedGeom.point (0, 0), 4326⟩) = false := by
  constructor
  · rfl
  · rfl

/-- C1 (amended): the geometry normalizer accepts a LineString as-is,
reduces a MultiLineString to its first constituent LineString (an empty
collection being invalid), and maps a parse failure to the invalid
sentinel `None`; any other successfully parsed geometry type is passed
through unchanged (tagged SRID 4326) rather than rejected.
Consequently, every Link row whose source geometry parses as a
LineString or MultiLineString and which produces a valid normalized
geometry carries a single-part LineString tagged SRID 4326. -/
theorem c1_normalizer_behavior :
    convert_geometry_to_wkt_element none = none
    ∧ (∀ cs, convert_geometry_to_wkt_element (some (ParsedGeom.lineString cs))
        = some ⟨ParsedGeom.lineString cs, 4326⟩)
    ∧ convert_geometry_to_wkt_element (some (ParsedGeom.multiLineString []))
        = none
    ∧ (∀ p ps,
        convert_geometry_to_wkt_element
            (some (ParsedGeom.multiLineString (p :: ps)))
          = some ⟨ParsedGeom.lineString p, 4326⟩)
    ∧ (∀ g w, convert_geometry_to_wkt_element (some g) = some w → w.srid = 4326)
    ∧ (∀ row l g, transform_link_row row = some l → row.geo_json = some g →
        g.isLinear = true →
        ∃ w, l.geometry = some w ∧ w.isSingleLineString = true
          ∧ w.srid = 4326) := by
  refine ⟨rfl, fun cs => rfl, rfl, fun p ps => rfl, ?_, ?_⟩
  · intro g w h
    cases g with
    | multiLineString parts =>
      cases parts with
      | nil => simp [convert_geometry_to_wkt_element] at h
      | cons p ps =>
        simp [convert_geometry_to_wkt_element] at h
        rw [← h]
    | lineString cs =>
      simp [convert_geometry_to_wkt_element] at h
      rw [← h]
    | point c =>
      simp [convert_geometry_to_wkt_element] at h
      rw [← h]
    | polygon rs =>
      simp [convert_geometry_to_wkt_element] at h
      rw [← h]
  · intro row l g hrow hgeo hlin
    unfold transform_link_row at hrow
    rw [hgeo] at hrow
    cases g with
    | lineString cs =>
      cases hid : pyInt row.link_id with
      | none =>
        simp [convert_geometry_to_wkt_element, hid] at hrow
      | some lid =>
        simp [convert_geometry_to_wkt_element, hid] at hrow
        refine ⟨⟨ParsedGeom.lineString cs, 4326⟩, ?_, rfl, rfl⟩
        rw [← hrow]
    | multiLineString parts =>
      cases parts with
      | nil => simp [convert_geometry_to_wkt_element] at hrow
      | cons p ps =>
        cases hid : pyInt row.link_id with
        | none =>
          simp [convert_geometry_to_wkt_element, hid] at hrow
        | some lid =>
          simp [convert_geometry_to_wkt_element, hid] at hrow
          refine ⟨⟨ParsedGeom.lineString p, 4326⟩, ?_, rfl, rfl⟩
          rw [← hrow]
    | point c => simp [ParsedGeom.isLinear] at hlin
    | polygon rs => simp [ParsedGeom.isLinear] at hlin

/-- C1 witness: the amended theorem applied at a concrete
MultiLineString row with two parts (Scenario A): the normalized
geometry is the first part only. -/
theorem c1_witness :
    ∃ w, (Link.geometry
        { link_id := 7
          geometry := some ⟨ParsedGeom.lineString [(0, 0), (1, 1)], 4326⟩
          road_name := none
          length := none
          road_type := none
          speed_limit := none }) = some w
      ∧ w.isSingleLineString = true ∧ w.srid = 4326 := by
  exact c1_normalizer_behavior.2.2.2.2.2
    { geo_json := some (ParsedGeom.multiLineString
        [[(0, 0), (1, 1)], [(2, 2), (3, 3)]])
      link_id := RawVal.num 7
      road_name := none
      length := RawVal.na }
    { link_id := 7
      geometry := some ⟨ParsedGeom.lineString [(0, 0), (1, 1)], 4326⟩
      road_name := none
      length := none
      road_type := none
      speed_limit := none }
    (ParsedGeom.multiLineString [[(0, 0), (1, 1)], [(2, 2), (3, 3)]])
    (by decide) rfl rfl

/-- C5: a link row whose geometry normalization yields the invalid
sentinel is skipped entirely — the transformer emits no Link for it —
and every Link the transformer does emit carries the (non-null)
normalized geometry of its row. -/
theorem c5_invalid_geometry_skips_row :
    ∀ row : LinkRow,
      (convert_geometry_to_wkt_element row.geo_json = none →
        transform_link_row row = none)
      ∧ (∀ l, transform_link_row row = some l →
          ∃ w, l.geometry = some w
            ∧ convert_geometry_to_wkt_element row.geo_json = some w) := by
  intro row
  constructor
  · intro hnone
    unfold transform_link_row
    rw [hnone]
  · intro l hl
    unfold transform_link_row at hl
    cases hcv : convert_geometry_to_wkt_element row.geo_json with
    | none => rw [hcv] at hl; exact absurd hl (by simp)
    | some w =>
      rw [hcv] at hl
      cases hid : pyInt row.link_id with
      | none => rw [hid] at hl; exact absurd hl (by simp)
      | some lid =>
        rw [hid] at hl
        refine ⟨w, ?_, rfl⟩
        cases hl
        rfl

/-- C5 witness: a concrete row with an empty MultiLineString (Scenario
B) is skipped, via the theorem's first conjunct. -/
theorem c5_witness :
    transform_link_row
      { geo_json := some (ParsedGeom.multiLineString [])
        link_id := RawVal.num 3
        road_name := some "Main St"
        length := RawVal.num 10 } = none := by
  exact (c5_invalid_geometry_skips_row _).1 (by decide)

theorem transform_speed_chunk_cons_ok (ids : List Int) (row : SpeedRow)
    (rest : List SpeedRow) (r : SpeedRecord)
    (h : transform_speed_row ids row = SpeedRowOutcome.ok r) :
    transform_speed_chunk ids (row :: rest)
      = (r :: (transform_speed_chunk ids rest).1,
         (transform_speed_chunk ids rest).2) := by
  simp only [transform_speed_chunk, h]

theorem transform_speed_chunk_cons_skipped (ids : List Int) (row : SpeedRow)
    (rest : List SpeedRow)
    (h : transform_speed_row ids row = SpeedRowOutcome.skippedUnknown) :
    transform_speed_chunk ids (row :: rest)
      = ((transform_speed_chunk ids rest).1,
         (transform_speed_chunk ids rest).2 + 1) := by
  simp only [transform_speed_chunk, h]

theorem transform_speed_chunk_cons_error (ids : List Int) (row : SpeedRow)
    (rest : List SpeedRow)
    (h : transform_speed_row ids row = SpeedRowOutcome.errorSkip) :
    transform_speed_chunk ids (row :: rest)
      = transform_speed_chunk ids rest := by
  simp only [transform_speed_chunk, h]

theorem transform_speed_row_ok_mem (ids : List Int) (row : SpeedRow)
    (r : SpeedRecord)
    (h : transform_speed_row ids row = SpeedRowOutcome.ok r) :
    r.link_id ∈ ids := by
  cases hid : pyInt row.link_id with
  | none => simp [transform_speed_row, hid] at h
  | some lid =>
    by_cases hm : lid ∈ ids
    · cases ht : to_datetime row.date_time with
      | none => simp [transform_speed_row, hid, hm, ht] at h
      | some ts =>
        cases hf : pyFloat row.average_speed with
        | none => simp [transform_speed_row, hid, hm, ht, hf] at h
        | some sp =>
          simp only [transform_speed_row, hid, ht, hf, if_pos hm] at h
          cases h
          exact hm
    · simp [transform_speed_row, hid, hm] at h

/-- C2: every SpeedRecord the speed-row transformer emits has a
`link_id` belonging to the referential index, and a row whose parsed
`link_id` is absent from the index is skipped (counted) and produces no
SpeedRecord. -/
theorem c2_referential_integrity :
    ∀ (ids : List Int) (rows : List SpeedRow),
      (∀ r ∈ (transform_speed_chunk ids rows).1, r.link_id ∈ ids)
      ∧ (∀ row ∈ rows, ∀ lid, pyInt row.link_id = some lid → lid ∉ ids →
          transform_speed_row ids row = SpeedRowOutcome.skippedUnknown) := by
  intro ids rows
  constructor
  · induction rows with
    | nil => intro r hr; simp [transform_speed_chunk] at hr
    | cons row rest ih =>
      intro r hr
      unfold transform_speed_chunk at hr
      cases hout : transform_speed_row ids row with
      | ok r0 =>
        rw [hout] at hr
        rcases List.mem_cons.mp hr with h1 | h1
        · subst h1
          exact transform_speed_row_ok_mem ids row r hout
        · exact ih r h1
      | skippedUnknown =>
        rw [hout] at hr
        exact ih r hr
      | errorSkip =>
        rw [hout] at hr
        exact ih r hr
  · intro row _hrow lid hid hnot
    simp [transform_speed_row, hid, hnot]

/-- C2 witness: with referential index {5}, a row for link 5 is emitted
with a member link id, and a row for link 9 is skipped as unknown. -/
theorem c2_witness :
    SpeedRecord.link_id
        { link_id := 5
          timestamp := 0
          speed := 30
          time_period := some "AM Peak" } ∈ [(5 : Int)]
      ∧ transform_speed_row [(5 : Int)]
          { link_id := RawVal.num 9
            date_time := RawTime.valid 0
            average_speed := RawVal.num 30
            period := 3 } = SpeedRowOutcome.skippedUnknown := by
  constructor
  · exact (c2_referential_integrity [(5 : Int)]
      [{ link_id := RawVal.num 5
         date_time := RawTime.valid 0
         average_speed := RawVal.num 30
         period := 3 }]).1 _ (by decide)
  · exact (c2_referential_integrity [(5 : Int)]
      [{ link_id := RawVal.num 9
         date_time := RawTime.valid 0
         average_speed := RawVal.num 30
         period := 3 }]).2 _ (by decide) 9 (by decide) (by decide)

/-- C4 counterexample: one speed row with a known link id but an
unparsable timestamp.  One row is read, the transformer emits no
record, the writer inserts nothing, and the reported skip count is 0 —
so rows_read (1) differs from rows_inserted + sum of reported skip
counts (0). -/
theorem c4_counterexample :
    ¬ (([{ link_id := RawVal.num 1
           date_time := RawTime.invalid "not-a-date"
           average_speed := RawVal.num 5
           period := 3 }] : List SpeedRow).length
        = bulk_insert_speed_records (fun _ => true)
            (transform_speed_chunk [(1 : Int)]
              [{ link_id := RawVal.num 1
                 date_time := RawTime.invalid "not-a-date"
                 average_speed := RawVal.num 5
                 period := 3 }]).1
          + (transform_speed_chunk [(1 : Int)]
              [{ link_id := RawVal.num 1
                 date_time := RawTime.invalid "not-a-date"
                 average_speed := RawVal.num 5
                 period := 3 }]).2) := by
  have h1 : (transform_speed_chunk [(1 : Int)]
      [{ link_id := RawVal.num 1
         date_time := RawTime.invalid "not-a-date"
         average_speed := RawVal.num 5
         period := 3 }]) = ([], 0) := by decide
  rw [h1]
  simp [bulk_insert_speed_records, chunksOf]

/-- C4 (amended): conservation holds only once the uncounted
exception-path skips are added.  For the link phase, rows read equal
rows transformed plus skipped rows, but the source reports no link skip
counter at all; for the speed phase, rows read equal records emitted
plus the reported unknown-link skip count plus the rows lost through
the uncounted exception path (bad timestamp / bad speed / bad id), so
the reported identity `rows_read = inserted + reported skips` fails
whenever a row takes the exception path or an insert fails. -/
theorem c4_conservation_amended :
    (∀ rows : List LinkRow,
      rows.length = (transform_link_chunk rows).length + link_skip_count rows)
    ∧ (∀ (ids : List Int) (srows : List SpeedRow),
      srows.length = (transform_speed_chunk ids srows).1.length
        + (transform_speed_chunk ids srows).2
        + speed_error_count ids srows) := by
  constructor
  · intro rows
    induction rows with
    | nil => simp [transform_link_chunk, link_skip_count]
    | cons row rest ih =>
      simp only [transform_link_chunk, link_skip_count] at ih ⊢
      rw [List.filterMap_cons, List.countP_cons]
      cases h : transform_link_row row with
      | none =>
        simp [h]
        omega
      | some l =>
        simp [h]
        omega
  · intro ids srows
    induction srows with
    | nil => simp [transform_speed_chunk, speed_error_count]
    | cons row rest ih =>
      cases h : transform_speed_row ids row with
      | ok r =>
        have hcount : speed_error_count ids (row :: rest)
            = speed_error_count ids rest := by
          simp [speed_error_count, List.countP_cons, h]
        rw [transform_speed_chunk_cons_ok ids row rest r h, hcount]
        simp only [List.length_cons]
        omega
      | skippedUnknown =>
        have hcount : speed_error_count ids (row :: rest)
            = speed_error_count ids rest := by
          simp [speed_error_count, List.countP_cons, h]
        rw [transform_speed_chunk_cons_skipped ids row rest h, hcount]
        simp only [List.length_cons]
        omega
      | errorSkip =>
        have hcount : speed_error_count ids (row :: rest)
            = speed_error_count ids rest + 1 := by
          simp [speed_error_count, List.countP_cons, h]
        rw [transform_speed_chunk_cons_error ids row rest h, hcount]
        simp only [List.length_cons]
        omega

/-- C6 counterexample: a row with a known link id and an unconvertible
speed value is dropped, but the transformer's reported skip count stays
0 — no per-reason ("bad speed"/"bad timestamp") counter exists in the
code, and not even the aggregate skip counter is incremented. -/
theorem c6_counterexample :
    transform_speed_chunk [(1 : Int)]
        [{ link_id := RawVal.num 1
           date_time := RawTime.valid 0
           average_speed := RawVal.badStr "oops"
           period := 3 }] = ([], 0) := by
  decide

/-- C6 (amended): a speed row whose timestamp or speed fails conversion
is skipped through the transformer's exception path — no SpeedRecord is
produced and the error never propagates (the transformer is a total
function) — but no skip counter of any kind is incremented for it: the
chunk result is unchanged by such a row. -/
theorem c6_uncounted_parse_failures :
    ∀ (ids : List Int) (row : SpeedRow) (lid : Int) (rest : List SpeedRow),
      pyInt row.link_id = some lid → lid ∈ ids →
      (to_datetime row.date_time = none ∨ pyFloat row.average_speed = none) →
      transform_speed_row ids row = SpeedRowOutcome.errorSkip
      ∧ transform_speed_chunk ids (row :: rest) = transform_speed_chunk ids rest := by
  intro ids row lid rest hid hmem hbad
  have herr : transform_speed_row ids row = SpeedRowOutcome.errorSkip := by
    rcases hbad with hbad | hbad
    · simp [transform_speed_row, hid, hmem, hbad]
    · cases ht : to_datetime row.date_time with
      | none => simp [transform_speed_row, hid, hmem, ht]
      | some ts => simp [transform_speed_row, hid, hmem, ht, hbad]
  exact ⟨herr, transform_speed_chunk_cons_error ids row rest herr⟩

/-- C6 witness: the amended theorem at a concrete bad-timestamp row. -/
theorem c6_witness :
    transform_speed_row [(2 : Int)]
        { link_id := RawVal.num 2
          date_time := RawTime.invalid "garbage"
          average_speed := RawVal.num 12
          period := 1 } = SpeedRowOutcome.errorSkip
      ∧ transform_speed_chunk [(2 : Int)]
          ({ link_id := RawVal.num 2
             date_time := RawTime.invalid "garbage"
             average_speed := RawVal.num 12
             period := 1 } :: [])
        = transform_speed_chunk [(2 : Int)] [] := by
  exact c6_uncounted_parse_failures [(2 : Int)] _ 2 [] (by decide) (by decide)
    (Or.inl (by decide))

theorem chunksOf_singleton_of_le (n : Nat) (hn : n ≠ 0) (l : List α)
    (hne : l ≠ []) (h : l.length ≤ n) : chunksOf n l = [l] := by
  cases l with
  | nil => exact absurd rfl hne
  | cons a t =>
    rw [chunksOf, dif_neg hn, List.take_of_length_le h,
      List.drop_eq_nil_of_le h]
    simp [chunksOf]

theorem sum_map_const_zero_of_filter (bs : List (List β)) (p : List β → Bool) :
    (((bs.filter p).map (fun _ => (0 : Nat))).sum : Nat) = 0 := by
  apply List.sum_eq_zero
  intro x hx
  rcases List.mem_map.mp hx with ⟨b, _, hb⟩
  exact hb.symm

theorem sum_map_length_eq_flatten_length (bs : List (List β)) :
    ((bs.map List.length).sum : Nat) = bs.flatten.length := by
  induction bs with
  | nil => simp
  | cons b bs ih =>
    rw [List.map_cons, List.sum_cons, List.flatten_cons, List.length_append,
      ih]

/-- C3 counterexample: on a one-record batch whose bulk insert fails,
the speed-record writer commits nothing (it skips the failed batch
outright), whereas the claimed link-writer-style behaviour — retrying
the batch row-by-row — would commit the record. -/
theorem c3_counterexample :
    bulk_insert_speed_records (fun _ => false)
        [{ link_id := 1, timestamp := 0, speed := 5, time_period := none }] = 0
      ∧ bulk_insert_speed_records_specified (fun _ => false) (fun _ => true)
        [{ link_id := 1, timestamp := 0, speed := 5, time_period := none }] = 1 := by
  have hch : chunksOf SPEED_BATCH_SIZE
      [({ link_id := 1, timestamp := 0, speed := 5,
          time_period := none } : SpeedRecord)]
      = [[{ link_id := 1, timestamp := 0, speed := 5, time_period := none }]] :=
    chunksOf_singleton_of_le SPEED_BATCH_SIZE (by decide) _ (by decide)
      (by decide)
  constructor
  · rw [bulk_insert_speed_records, hch]
    rfl
  · rw [bulk_insert_speed_records_specified, hch]
    rfl

/-- C3 (amended): the speed-record writer does not mirror the link
writer's per-row fallback: when a batch bulk insert fails, the batch
transaction is rolled back and the whole batch is skipped, so a failed
batch contributes zero committed rows; the writer's return value counts
exactly the batches whose bulk insert succeeded, and equals the full
input length only when every batch succeeds. -/
theorem c3_speed_writer_skips_failed_batches :
    ∀ (batchOk : List SpeedRecord → Bool) (recs : List SpeedRecord),
      bulk_insert_speed_records batchOk recs
        = (((chunksOf SPEED_BATCH_SIZE recs).filter batchOk).map
            List.length).sum
      ∧ ((∀ b ∈ chunksOf SPEED_BATCH_SIZE recs, batchOk b = true) →
          bulk_insert_speed_records batchOk recs = recs.length) := by
  intro batchOk recs
  have hsplit := sum_map_ite_eq_filter_split (chunksOf SPEED_BATCH_SIZE recs)
    batchOk List.length (fun _ => 0)
  constructor
  · rw [bulk_insert_speed_records, hsplit,
      sum_map_const_zero_of_filter (chunksOf SPEED_BATCH_SIZE recs)
        (fun b => !batchOk b)]
    omega
  · intro hall
    have hmap : (chunksOf SPEED_BATCH_SIZE recs).map
        (fun batch => if batchOk batch then batch.length else 0)
          = (chunksOf SPEED_BATCH_SIZE recs).map List.length := by
      apply List.map_congr_left
      intro b hb
      rw [hall b hb]
      simp
    rw [bulk_insert_speed_records, hmap,
      sum_map_length_eq_flatten_length, chunksOf_flatten]

/-- C3 witness for the amended theorem: with every batch succeeding,
the writer commits both records of a concrete two-record input. -/
theorem c3_witness :
    bulk_insert_speed_records (fun _ => true)
      [{ link_id := 2, timestamp := 1, speed := 7, time_period := none },
       { link_id := 3, timestamp := 2, speed := 9, time_period := none }] = 2 := by
  exact (c3_speed_writer_skips_failed_batches (fun _ => true)
    [{ link_id := 2, timestamp := 1, speed := 7, time_period := none },
     { link_id := 3, timestamp := 2, speed := 9, time_period := none }]).2
    (fun b _ => rfl)

/-- C7: the link writer cuts the chunk's entity list into batches of at
most `LINK_BATCH_SIZE = 1000` whose concatenation is the whole list,
attempts one bulk insert per batch, falls back to per-row inserts
exactly on the batches whose bulk insert fails, and returns the count
of rows actually committed: full batch sizes for committed batches plus
the individually committed rows of failed batches; with no failures
this is the whole input length. -/
theorem c7_link_writer_batches :
    ∀ (batchOk : List Link → Bool) (rowOk : Link → Bool) (links : List Link),
      (chunksOf LINK_BATCH_SIZE links).flatten = links
      ∧ (∀ b ∈ chunksOf LINK_BATCH_SIZE links, b.length ≤ LINK_BATCH_SIZE)
      ∧ bulk_insert_links batchOk rowOk links
          = (((chunksOf LINK_BATCH_SIZE links).filter batchOk).map
              List.length).sum
            + (((chunksOf LINK_BATCH_SIZE links).filter
                (fun b => !batchOk b)).map
                (fun b => (b.filter rowOk).length)).sum
      ∧ ((∀ b ∈ chunksOf LINK_BATCH_SIZE links, batchOk b = true) →
          bulk_insert_links batchOk rowOk links = links.length) := by
  intro batchOk rowOk links
  refine ⟨chunksOf_flatten LINK_BATCH_SIZE links, ?_, ?_, ?_⟩
  · intro b hb
    exact length_le_of_mem_chunksOf LINK_BATCH_SIZE (by decide) links b hb
  · exact sum_map_ite_eq_filter_split (chunksOf LINK_BATCH_SIZE links)
      batchOk List.length (fun b => (b.filter rowOk).length)
  · intro hall
    have hmap : (chunksOf LINK_BATCH_SIZE links).map
        (fun batch => if batchOk batch then batch.length
          else (batch.filter rowOk).length)
          = (chunksOf LINK_BATCH_SIZE links).map List.length := by
      apply List.map_congr_left
      intro b hb
      rw [hall b hb]
      simp
    rw [bulk_insert_links, hmap, sum_map_length_eq_flatten_length,
      chunksOf_flatten]

/-- C7 witness: applied to a concrete two-link list with a failing
batch oracle and a row oracle accepting only link 1, exactly one row is
committed; and with everything succeeding, both are. -/
theorem c7_witness :
    bulk_insert_links (fun _ => true) (fun _ => true)
        [{ link_id := 1, geometry := none, road_name := none, length := none,
           road_type := none, speed_limit := none },
         { link_id := 2, geometry := none, road_name := none, length := none,
           road_type := none, speed_limit := none }] = 2 := by
  exact (c7_link_writer_batches (fun _ => true) (fun _ => true)
    [{ link_id := 1, geometry := none, road_name := none, length := none,
       road_type := none, speed_limit := none },
     { link_id := 2, geometry := none, road_name := none, length := none,
       road_type := none, speed_limit := none }]).2.2.2 (fun b _ => rfl)

theorem bulk_insert_links_all_ok (rowOk : Link → Bool) (l : List Link) :
    bulk_insert_links (fun _ => true) rowOk l = l.length := by
  rw [bulk_insert_links]
  have hmap : (chunksOf LINK_BATCH_SIZE l).map
      (fun batch => if (fun _ => true) batch then batch.length
        else (batch.filter rowOk).length)
        = (chunksOf LINK_BATCH_SIZE l).map List.length := by
    apply List.map_congr_left
    intro b _
    simp
  rw [hmap, sum_map_length_eq_flatten_length, chunksOf_flatten]

theorem bulk_insert_speed_records_all_ok (recs : List SpeedRecord) :
    bulk_insert_speed_records (fun _ => true) recs = recs.length := by
  rw [bulk_insert_speed_records]
  have hmap : (chunksOf SPEED_BATCH_SIZE recs).map
      (fun batch => if (fun _ => true) batch then batch.length else 0)
        = (chunksOf SPEED_BATCH_SIZE recs).map List.length := by
    apply List.map_congr_left
    intro b _
    simp
  rw [hmap, sum_map_length_eq_flatten_length, chunksOf_flatten]

theorem sum_transform_link_lengths (bs : List (List LinkRow)) :
    ((bs.map (fun ch => (transform_link_chunk ch).length)).sum : Nat)
      = (transform_link_chunk bs.flatten).length := by
  induction bs with
  | nil => simp [transform_link_chunk]
  | cons b bs ih =>
    rw [List.map_cons, List.sum_cons, List.flatten_cons]
    unfold transform_link_chunk at *
    rw [List.filterMap_append, List.length_append, ih]

theorem transform_speed_chunk_append (ids : List Int)
    (l1 l2 : List SpeedRow) :
    (transform_speed_chunk ids (l1 ++ l2)).1
      = (transform_speed_chunk ids l1).1 ++ (transform_speed_chunk ids l2).1 := by
  induction l1 with
  | nil => simp [transform_speed_chunk]
  | cons row rest ih =>
    rw [List.cons_append]
    cases h : transform_speed_row ids row with
    | ok r =>
      rw [transform_speed_chunk_cons_ok ids row (rest ++ l2) r h,
        transform_speed_chunk_cons_ok ids row rest r h]
      simp [ih]
    | skippedUnknown =>
      rw [transform_speed_chunk_cons_skipped ids row (rest ++ l2) h,
        transform_speed_chunk_cons_skipped ids row rest h]
      simp [ih]
    | errorSkip =>
      rw [transform_speed_chunk_cons_error ids row (rest ++ l2) h,
        transform_speed_chunk_cons_error ids row rest h]
      exact ih

theorem sum_transform_speed_lengths (ids : List Int)
    (bs : List (List SpeedRow)) :
    ((bs.map (fun ch => (transform_speed_chunk ids ch).1.length)).sum : Nat)
      = (transform_speed_chunk ids bs.flatten).1.length := by
  induction bs with
  | nil => simp [transform_speed_chunk]
  | cons b bs ih =>
    rw [List.map_cons, List.sum_cons, List.flatten_cons,
      transform_speed_chunk_append, List.length_append, ih]

theorem process_links_total_all_ok (c : Nat) (rowOk : Link → Bool)
    (rows : List LinkRow) :
    process_links_total c (fun _ => true) rowOk rows
      = (transform_link_chunk rows).length := by
  rw [process_links_total]
  have hmap : (chunksOf c rows).map
      (fun ch => bulk_insert_links (fun _ => true) rowOk
        (transform_link_chunk ch))
        = (chunksOf c rows).map
            (fun ch => (transform_link_chunk ch).length) := by
    apply List.map_congr_left
    intro ch _
    exact bulk_insert_links_all_ok rowOk (transform_link_chunk ch)
  rw [hmap, sum_transform_link_lengths, chunksOf_flatten]

theorem process_speed_total_all_ok (c : Nat) (ids : List Int)
    (rows : List SpeedRow) :
    process_speed_total c (fun _ => true) ids rows
      = (transform_speed_chunk ids rows).1.length := by
  rw [process_speed_total]
  have hmap : (chunksOf c rows).map
      (fun ch => bulk_insert_speed_records (fun _ => true)
        (transform_speed_chunk ids ch).1)
        = (chunksOf c rows).map
            (fun ch => (transform_speed_chunk ids ch).1.length) := by
    apply List.map_congr_left
    intro ch _
    exact bulk_insert_speed_records_all_ok (transform_speed_chunk ids ch).1
  rw [hmap, sum_transform_speed_lengths, chunksOf_flatten]

/-- C9: with no insert failures, the totals accumulated by the two
chunked phases are independent of the configured chunk size — any two
chunk sizes give the same inserted total, both being the number of
per-row transform successes over the whole source. -/
theorem c9_chunk_size_independence :
    ∀ (c₁ c₂ : Nat) (rowOk : Link → Bool) (ids : List Int)
      (linkRows : List LinkRow) (speedRows : List SpeedRow),
      process_links_total c₁ (fun _ => true) rowOk linkRows
        = process_links_total c₂ (fun _ => true) rowOk linkRows
      ∧ process_speed_total c₁ (fun _ => true) ids speedRows
        = process_speed_total c₂ (fun _ => true) ids speedRows
      ∧ ((chunksOf c₁ linkRows).map
            (fun ch => (transform_link_chunk ch).length)).sum
          = ((chunksOf c₂ linkRows).map
              (fun ch => (transform_link_chunk ch).length)).sum
      ∧ ((chunksOf c₁ speedRows).map
            (fun ch => (transform_speed_chunk ids ch).1.length)).sum
          = ((chunksOf c₂ speedRows).map
              (fun ch => (transform_speed_chunk ids ch).1.length)).sum := by
  intro c₁ c₂ rowOk ids linkRows speedRows
  refine ⟨?_, ?_, ?_, ?_⟩
  · rw [process_links_total_all_ok, process_links_total_all_ok]
  · rw [process_speed_total_all_ok, process_speed_total_all_ok]
  · rw [sum_transform_link_lengths, sum_transform_link_lengths,
      chunksOf_flatten, chunksOf_flatten]
  · rw [sum_transform_speed_lengths, sum_transform_speed_lengths,
      chunksOf_flatten, chunksOf_flatten]

/-- C8: a failure of the initial clear step is fatal — the exception
propagates past `clear_existing_data_orm` (which rolls back, leaving
the destination unchanged), the run exits with status 1, and nothing is
inserted; when the clear succeeds, the final state is independent of
whatever rows the destination held before the run (full destructive
reload before any insert). -/
theorem c8_clear_failure_is_fatal :
    ∀ (queryFails : Bool) (batchOk : List Link → Bool) (rowOk : Link → Bool)
      (speedBatchOk : List SpeedRecord → Bool) (db db' : DB)
      (linkRows : List LinkRow) (speedRows : List SpeedRow),
      ingestion_main true queryFails batchOk rowOk speedBatchOk db
          linkRows speedRows = (db, 1)
      ∧ ingestion_main false queryFails batchOk rowOk speedBatchOk db
            linkRows speedRows
          = ingestion_main false queryFails batchOk rowOk speedBatchOk db'
              linkRows speedRows := by
  intro queryFails batchOk rowOk speedBatchOk db db' linkRows speedRows
  exact ⟨rfl, rfl⟩

theorem transform_speed_chunk_empty_ids (rows : List SpeedRow) :
    (transform_speed_chunk [] rows).1 = [] := by
  induction rows with
  | nil => rfl
  | cons row rest ih =>
    cases hid : pyInt row.link_id with
    | none =>
      rw [transform_speed_chunk_cons_error [] row rest
        (by simp [transform_speed_row, hid])]
      exact ih
    | some lid =>
      rw [transform_speed_chunk_cons_skipped [] row rest
        (by simp [transform_speed_row, hid])]
      exact ih

/-- C10: when the referential-index query raises,
`get_existing_link_ids` swallows the error and returns the empty set;
with an empty index, every speed row whose link id parses is skipped as
an unknown link, the transformer emits no SpeedRecord at all, and the
speed phase totals zero inserted records instead of failing. -/
theorem c10_query_failure_empty_index :
    ∀ (db : DB) (speedBatchOk : List SpeedRecord → Bool)
      (rows : List SpeedRow),
      get_existing_link_ids true db = []
      ∧ (∀ row ∈ rows, ∀ lid, pyInt row.link_id = some lid →
          transform_speed_row (get_existing_link_ids true db) row
            = SpeedRowOutcome.skippedUnknown)
      ∧ (transform_speed_chunk (get_existing_link_ids true db) rows).1 = []
      ∧ process_speed_total SPEED_RECORD_CHUNK_SIZE speedBatchOk
          (get_existing_link_ids true db) rows = 0 := by
  intro db speedBatchOk rows
  have hids : get_existing_link_ids true db = [] := rfl
  refine ⟨rfl, ?_, ?_, ?_⟩
  · intro row _hrow lid hid
    rw [hids]
    simp [transform_speed_row, hid]
  · rw [hids]
    exact transform_speed_chunk_empty_ids rows
  · rw [hids, process_speed_total]
    apply List.sum_eq_zero
    intro x hx
    rcases List.mem_map.mp hx with ⟨ch, _, hch⟩
    rw [← hch, transform_speed_chunk_empty_ids ch, bulk_insert_speed_records]
    simp [chunksOf]

/-- C10 witness: with a query failure against a destination holding no
links, a concrete row for link 4 is skipped as an unknown link. -/
theorem c10_witness :
    transform_speed_row (get_existing_link_ids true ⟨[], []⟩)
        { link_id := RawVal.num 4
          date_time := RawTime.valid 0
          average_speed := RawVal.num 1
          period := 2 } = SpeedRowOutcome.skippedUnknown := by
  exact (c10_query_failure_empty_index ⟨[], []⟩ (fun _ => true)
    [{ link_id := RawVal.num 4
       date_time := RawTime.valid 0
       average_speed := RawVal.num 1
       period := 2 }]).2.1 _ (by simp) 4 (by decide)
